import Mathlib

/-!
# Verification of the pingmole core against its specification

Shallow embedding of the pingmole relay-probing pipeline:

* `src/pinger.rs` — `RelayTimed` (a relay paired with its successful probe
  timings), the per-relay statistics `rtt_mean` / `rtt_median`, the per-relay
  probe loop `RelayPinger::execute`, and the orchestrator `RelaysPinger::ping`;
* `src/filters.rs` — `FilterByRTT` and `FilterByDistance`;
* `src/reporter.rs` — `SortBy` and `Reporter::sort`.

Modelling conventions:

* Rust `std::time::Duration` is modelled as a natural number of nanoseconds.
  `Duration + Duration` is `Nat` addition and `Duration / u32` is `Nat` floor
  division, which agrees with the `Duration` implementation (floor division on
  the total nanosecond count).  The `usize → u32` cast of `timings.len()` in
  `rtt_mean` is not modelled (the length is bounded by the probe count).
* `f64` relay distances are modelled as rationals; the only operations the
  embedded code performs on them are order comparisons (`<`, `total_cmp`).
* Rust's stable `Vec::sort_by` / `Vec::sort` are modelled with Mathlib's
  stable `List.insertionSort`: a stable sort is functionally unique given the
  comparator, so any stable sorting algorithm is an exact model.
* The async probe loop and the task join loop are modelled by explicit
  recursion over oracle data (probe outcomes, join results), one step per
  iteration of the source loop.
-/

namespace Pingmole

/-- `std::time::Duration`, as a number of nanoseconds. -/
abbrev Duration := ℕ

/-- A duration of `n` milliseconds, in nanoseconds. -/
def ms (n : ℕ) : Duration := n * 1000000

/-- `Coord` from `src/coord.rs`: a latitude/longitude pair.  The field values
are only carried around; the embedded filter code never computes with them
(the floating-point haversine is handled separately, see `distTo` parameters). -/
structure Coord where
  latitude : ℚ
  longitude : ℚ
deriving DecidableEq

/-- `Protocol` from `src/relays.rs`. -/
inductive Protocol
  | openVPN
  | wireGuard
deriving DecidableEq

/-- `Relay` from `src/relays.rs`.  `distance` is the value precomputed by the
loader (`RelaysLoader::load_local` / `load_remote` store
`config.location.distance_to(&coord)` in it). -/
structure Relay where
  ip : String
  city : String
  country : String
  coord : Coord
  protocol : Protocol
  isActive : Bool
  isMullvadOwned : Bool
  distance : ℚ
deriving DecidableEq

/-- `RelayTimed` from `src/pinger.rs`: a relay paired with the ordered
sequence of successful probe round-trip durations. -/
structure RelayTimed where
  relay : Relay
  timings : List Duration
deriving DecidableEq

/-- `RelayTimed::rtt_mean` (src/pinger.rs:80-85):
`match timings.len() { 0 => None, len => Some(sum / len) }`.
`Duration / u32` floor-divides the total nanosecond count. -/
def RelayTimed.rttMean (t : RelayTimed) : Option Duration :=
  if t.timings.length = 0 then none
  else some (t.timings.sum / t.timings.length)

/-- `RelayTimed::rtt_median` (src/pinger.rs:88-104): on a nonempty sequence it
clones the timings, sorts the clone ascending, takes `middle = len / 2`, and
returns `timings[middle]` for odd `len` and
`(timings[middle-1] + timings[middle]) / 2` for even `len`.  The in-bounds
`Vec` indexing is rendered with `List.getD`; the clone-then-sort is the sorted
copy `List.insertionSort (· ≤ ·) t.timings` (stable sorts of numbers agree
with any sort). -/
def RelayTimed.rttMedian (t : RelayTimed) : Option Duration :=
  if t.timings.length = 0 then none
  else if t.timings.length % 2 = 0 then
    some (((List.insertionSort (· ≤ ·) t.timings).getD (t.timings.length / 2 - 1) 0 +
           (List.insertionSort (· ≤ ·) t.timings).getD (t.timings.length / 2) 0) / 2)
  else
    some ((List.insertionSort (· ≤ ·) t.timings).getD (t.timings.length / 2) 0)

/-- `SortBy` from `src/reporter.rs`. -/
inductive SortBy
  | country
  | city
  | meanRTT
  | medianRTT
  | distance
deriving DecidableEq

/-- Rust's `Ord::cmp` on a totally ordered type (`String::cmp`,
`Duration::cmp`, and — absent NaN, which the model excludes — `f64::total_cmp`). -/
def cmpLinear {α : Type _} [LinearOrder α] (a b : α) : Ordering :=
  if a < b then .lt else if a = b then .eq else .gt

/-- Rust's derived `Ord` on `Option<T>`: `None` compares below every
`Some(_)`. -/
def cmpOption {α : Type _} (cmp : α → α → Ordering) : Option α → Option α → Ordering
  | none, none => .eq
  | none, some _ => .lt
  | some _, none => .gt
  | some a, some b => cmp a b

/-- The comparator closure passed to `sort_by` in `Reporter::sort`
(src/reporter.rs:29-42). -/
def Reporter.cmp (sortBy : SortBy) (a b : RelayTimed) : Ordering :=
  match sortBy with
  | .country => cmpLinear a.relay.country b.relay.country
  | .city => cmpLinear a.relay.city b.relay.city
  | .meanRTT => cmpOption cmpLinear a.rttMean b.rttMean
  | .medianRTT => cmpOption cmpLinear a.rttMedian b.rttMedian
  | .distance => cmpLinear a.relay.distance b.relay.distance

/-- The ordering induced by `Reporter.cmp`: `a` may be placed before `b`
exactly when the comparator does not say `Greater`. -/
def Reporter.le (sortBy : SortBy) (a b : RelayTimed) : Prop :=
  Reporter.cmp sortBy a b ≠ .gt

instance (sortBy : SortBy) : DecidableRel (Reporter.le sortBy) := fun a b => by
  unfold Reporter.le
  infer_instance

/-- `Reporter::sort` (src/reporter.rs:29-42): `Vec::sort_by` is a stable sort
driven by `Reporter.cmp`; modelled by the stable `List.insertionSort` on the
induced ordering. -/
def Reporter.sort (sortBy : SortBy) (timings : List RelayTimed) : List RelayTimed :=
  List.insertionSort (Reporter.le sortBy) timings

/-- Modelled from the spec: `RelayTimed::rtt`, the accessor called by
`FilterByRTT::matches` (src/filters.rs:107), is not defined anywhere under
`src/` — `RelayTimed` only defines `rtt_mean` and `rtt_median`.  The spec says
the RTT filter "admits a `TimedRelay` if its mean latency is defined and ≤ the
threshold", so the missing accessor is modelled as the mean latency. -/
def RelayTimed.rtt (t : RelayTimed) : Option Duration :=
  t.rttMean

/-- `FilterByRTT` from `src/filters.rs`: `rtt = none` means no threshold is
configured ("any RTT"). -/
structure FilterByRTT where
  rtt : Option Duration

/-- `FilterByRTT::matches` (src/filters.rs:102-110):
`self.rtt.map_or(true, |filter_rtt| timings.rtt().map_or(false, |relay_rtt| relay_rtt <= filter_rtt))`. -/
def FilterByRTT.matches (f : FilterByRTT) (timings : RelayTimed) : Bool :=
  f.rtt.elim true fun filterRtt =>
    timings.rtt.elim false fun relayRtt => relayRtt ≤ filterRtt

/-- `FilterByDistance` from `src/filters.rs`: a stored coordinate and a
threshold in kilometers. -/
structure FilterByDistance where
  coord : Coord
  distance : ℚ

/-- `FilterByDistance::matches` (src/filters.rs:49-51):
`relay.coord.distance_to(&self.coord) < self.distance`.  The relay's stored
`distance` field is not consulted.  `Coord::distance_to` is floating-point
haversine trigonometry, which has no exact shallow embedding, so the metric is
passed as an explicit parameter `distTo`; every theorem below holds for an
arbitrary metric, and concrete instantiations only use properties the source
metric has (such as `distance_to` of a coordinate with itself being `0`, per
the rounding in src/coord.rs:70). -/
def FilterByDistance.matches (distTo : Coord → Coord → ℚ) (f : FilterByDistance)
    (relay : Relay) : Bool :=
  distTo relay.coord f.coord < f.distance

/-- `RelayPingerConfig` from `src/pinger.rs`. -/
structure RelayPingerConfig where
  count : ℕ
  timeout : Duration
  interval : Duration

/-- One iteration step of the `for _ in 1..=count` loop of
`RelayPinger::execute` (src/pinger.rs:134-150), driven by an oracle
`outcomes : ℕ → Option Duration` giving the result of the TCP connection
attempt at each tick: `some elapsed` when the connection is established before
the timeout (the `Ok(Ok(..))` arm pushes the elapsed time), `none` when the
attempt fails or times out (the `Ok(Err(..))` and `Err(..)` arms `continue`).
Returns the collected timings together with the number of ticks performed. -/
def pingLoop (outcomes : ℕ → Option Duration) :
    ℕ → ℕ → List Duration → List Duration × ℕ
  | 0, ticks, timings => (timings, ticks)
  | n + 1, ticks, timings =>
    match outcomes ticks with
    | some elapsed => pingLoop outcomes n (ticks + 1) (timings ++ [elapsed])
    | none => pingLoop outcomes n (ticks + 1) timings

/-- `RelayPinger::execute` (src/pinger.rs:121-153): runs the probe loop for
`config.count` ticks and always returns a `RelayTimed` packaging the relay
with whatever timings were collected. -/
def RelayPinger.execute (relay : Relay) (config : RelayPingerConfig)
    (outcomes : ℕ → Option Duration) : RelayTimed :=
  { relay := relay, timings := (pingLoop outcomes config.count 0 []).1 }

/-- `RelaysPingerError` from `src/pinger.rs:11-15`: the single distinct error
condition, produced when a spawned prober task cannot be awaited. -/
inductive RelaysPingerError
  | pingerAwaitFailed
deriving DecidableEq

/-- The `for task in self.tasks` loop of `RelaysPinger::ping`
(src/pinger.rs:183-197), with the accumulated `results` vector made explicit.
Each list entry models the join result of one spawned task, in the order the
tasks were spawned into the `tasks` vector (`RelaysPinger::new`,
src/pinger.rs:164-180): `some t` when the task joins with value `t` (the value
a task joins with does not depend on when the task completes), `none` when the
task cannot be awaited (`task.await` returns `Err`, mapped to
`PingerAwaitFailed` and propagated by `?`). -/
def pingJoinLoop (filters : List (RelayTimed → Bool)) :
    List (Option RelayTimed) → List RelayTimed →
    Except RelaysPingerError (List RelayTimed)
  | [], results => .ok results
  | none :: _, _ => .error .pingerAwaitFailed
  | some t :: rest, results =>
    pingJoinLoop filters rest
      (if filters.all fun fl => fl t then results ++ [t] else results)

/-- `RelaysPinger::ping` (src/pinger.rs:183-197): awaits every task in spawn
order, applies the Ping-stage filters conjunctively, and collects the admitted
results. -/
def RelaysPinger.ping (filters : List (RelayTimed → Bool))
    (tasks : List (Option RelayTimed)) : Except RelaysPingerError (List RelayTimed) :=
  pingJoinLoop filters tasks []

/-- Source-side behavior on tasks carrying completion times: `task.await`
yields the task's value whatever its completion time, so the times are simply
discarded by the join loop. -/
def RelaysPinger.pingTimed (filters : List (RelayTimed → Bool))
    (tasks : List (RelayTimed × ℕ)) : Except RelaysPingerError (List RelayTimed) :=
  RelaysPinger.ping filters (tasks.map fun task => some task.1)

/-- Modelled from the spec (claim side, for comparison with
`RelaysPinger.pingTimed`): "output is the ordered sequence of admitted
`TimedRelay` values in the order their underlying concurrent tasks complete" —
the admitted values listed by ascending completion time. -/
def completionOrder (tasks : List (RelayTimed × ℕ)) : List RelayTimed :=
  (List.insertionSort (fun a b : RelayTimed × ℕ => a.2 ≤ b.2) tasks).map Prod.fst

/-! ### Test fixtures shared by witnesses and counterexamples -/

/-- A fixed coordinate for concrete test relays. -/
def testCoord : Coord := ⟨0, 0⟩

/-- A concrete relay with the given address and stored distance. -/
def testRelay (ip : String) (dist : ℚ) : Relay :=
  { ip := ip, city := "c", country := "x", coord := testCoord,
    protocol := .wireGuard, isActive := true, isMullvadOwned := true,
    distance := dist }

/-- A timed relay with no successful timings (mean and median undefined). -/
def tUndef : RelayTimed := ⟨testRelay "a" 0, []⟩

/-- A timed relay with one successful timing (mean and median defined). -/
def tDef : RelayTimed := ⟨testRelay "b" 0, [ms 100]⟩

/-- A stand-in for the haversine metric used in concrete evaluations: the only
property of `Coord::distance_to` it relies on is that the distance from a
coordinate to itself is `0`, which the source guarantees exactly (the rounded
meter value of `asin 0` is `0`, src/coord.rs:70). -/
def testDist : Coord → Coord → ℚ := fun a b => if a = b then 0 else 20015

/-! ### Comparator lemmas -/

/-- `cmpLinear` does not answer `Greater` exactly on `≤`. -/
theorem cmpLinear_ne_gt {α : Type _} [LinearOrder α] {a b : α} :
    cmpLinear a b ≠ Ordering.gt ↔ a ≤ b := by
  unfold cmpLinear
  split_ifs with h1 h2
  · simp [le_of_lt h1]
  · simp [le_of_eq h2]
  · have hba : b < a := lt_of_le_of_ne (not_lt.mp h1) fun e => h2 e.symm
    simp [not_le.mpr hba]

/-- `cmpLinear` answers `Equal` exactly on equality. -/
theorem cmpLinear_eq_eq {α : Type _} [LinearOrder α] {a b : α} :
    cmpLinear a b = Ordering.eq ↔ a = b := by
  unfold cmpLinear
  split_ifs with h1 h2
  · simp [ne_of_lt h1]
  · simp [h2]
  · have hba : b < a := lt_of_le_of_ne (not_lt.mp h1) fun e => h2 e.symm
    simp [ne_of_gt hba]

/-- Totality of the `cmpLinear`-induced ordering. -/
theorem cmpLinear_total {α : Type _} [LinearOrder α] (a b : α) :
    cmpLinear a b ≠ Ordering.gt ∨ cmpLinear b a ≠ Ordering.gt := by
  rw [cmpLinear_ne_gt, cmpLinear_ne_gt]
  exact le_total a b

/-- Transitivity of the `cmpLinear`-induced ordering. -/
theorem cmpLinear_trans {α : Type _} [LinearOrder α] {a b c : α}
    (h1 : cmpLinear a b ≠ Ordering.gt) (h2 : cmpLinear b c ≠ Ordering.gt) :
    cmpLinear a c ≠ Ordering.gt := by
  rw [cmpLinear_ne_gt] at h1 h2 ⊢
  exact le_trans h1 h2

/-- Totality of the `cmpOption cmpLinear`-induced ordering. -/
theorem cmpOption_total {α : Type _} [LinearOrder α] (x y : Option α) :
    cmpOption cmpLinear x y ≠ Ordering.gt ∨ cmpOption cmpLinear y x ≠ Ordering.gt := by
  cases x <;> cases y <;> simp [cmpOption]
  exact cmpLinear_total _ _

/-- Transitivity of the `cmpOption cmpLinear`-induced ordering. -/
theorem cmpOption_trans {α : Type _} [LinearOrder α] {x y z : Option α}
    (h1 : cmpOption cmpLinear x y ≠ Ordering.gt)
    (h2 : cmpOption cmpLinear y z ≠ Ordering.gt) :
    cmpOption cmpLinear x z ≠ Ordering.gt := by
  cases x <;> cases y <;> cases z <;> simp_all [cmpOption]
  exact cmpLinear_trans h1 h2

instance (sortBy : SortBy) : IsTotal RelayTimed (Reporter.le sortBy) where
  total a b := by
    cases sortBy <;> simp only [Reporter.le, Reporter.cmp] <;>
      first
        | exact cmpLinear_total _ _
        | exact cmpOption_total _ _

instance (sortBy : SortBy) : IsTrans RelayTimed (Reporter.le sortBy) where
  trans a b c := by
    cases sortBy <;> simp only [Reporter.le, Reporter.cmp] <;>
      first
        | exact cmpLinear_trans
        | exact cmpOption_trans

/-- Under the `MeanRTT` ordering, if `a` may precede `b` and `b` has an
undefined mean, then `a` has an undefined mean too (`None` is the minimum of
Rust's derived `Ord` on `Option`). -/
theorem le_meanRTT_none {a b : RelayTimed} (h : Reporter.le .meanRTT a b)
    (hb : b.rttMean = none) : a.rttMean = none := by
  cases ha : a.rttMean with
  | none => rfl
  | some m =>
    exfalso
    unfold Reporter.le Reporter.cmp at h
    rw [ha, hb] at h
    exact h rfl

/-- Under the `MedianRTT` ordering, if `a` may precede `b` and `b` has an
undefined median, then `a` has an undefined median too. -/
theorem le_medianRTT_none {a b : RelayTimed} (h : Reporter.le .medianRTT a b)
    (hb : b.rttMedian = none) : a.rttMedian = none := by
  cases ha : a.rttMedian with
  | none => rfl
  | some m =>
    exfalso
    unfold Reporter.le Reporter.cmp at h
    rw [ha, hb] at h
    exact h rfl

/-- C1 (counterexample): sorting `[tDef, tUndef]` by mean RTT puts the relay
with an undefined RTT *first*, not last: the claim that every relay with an
undefined RTT orders after every relay with a defined RTT fails on this
concrete input. -/
theorem sort_undefined_rtt_claim_false :
    Reporter.sort .meanRTT [tDef, tUndef] = [tUndef, tDef] ∧
    tUndef.rttMean = none ∧ tDef.rttMean = some (ms 100) ∧
    ¬ (Reporter.sort .meanRTT [tDef, tUndef]).Pairwise
        (fun x y => x.rttMean = none → y.rttMean = none) := by
  refine ⟨by decide, by decide, by decide, by decide⟩

/-- C1 (amended): in `Reporter::sort` with sort key `MeanRTT` or `MedianRTT`,
an undefined RTT (relay with zero successful timings) is treated as the
*minimum* possible value for ordering purposes — Rust's derived `Ord` on
`Option` places `None` below every `Some` — so every relay with an undefined
RTT orders before every relay with a defined RTT and unreachable relays sort
first. -/
theorem sort_undefined_rtt_first (l : List RelayTimed) :
    ((Reporter.sort .meanRTT l).Pairwise
      fun a b => b.rttMean = none → a.rttMean = none) ∧
    ((Reporter.sort .medianRTT l).Pairwise
      fun a b => b.rttMedian = none → a.rttMedian = none) := by
  constructor
  · exact (List.sorted_insertionSort (Reporter.le .meanRTT) l).imp
      fun h hb => le_meanRTT_none h hb
  · exact (List.sorted_insertionSort (Reporter.le .medianRTT) l).imp
      fun h hb => le_medianRTT_none h hb

/-! ### C9: stability of `Reporter::sort` -/

/-- Two timed relays with equal stored distance `10` but different addresses,
for the stability witness. -/
def tEqA : RelayTimed := ⟨testRelay "eqA" 10, []⟩

/-- Second equal-key relay for the stability witness. -/
def tEqB : RelayTimed := ⟨testRelay "eqB" 10, []⟩

/-- Timed relay with stored distance 50 km. -/
def t50 : RelayTimed := ⟨testRelay "r50" 50, []⟩

/-- Timed relay with stored distance 10 km. -/
def t10 : RelayTimed := ⟨testRelay "r10" 10, []⟩

/-- Timed relay with stored distance 30 km. -/
def t30 : RelayTimed := ⟨testRelay "r30" 30, []⟩

/-- C9: `Reporter::sort` is stable — for every sort key, any sublist of the
input whose elements compare pairwise `Equal` under the chosen key is still a
sublist of the sorted output (equal-key items retain their pre-sort relative
order; no secondary tie-break key is applied). -/
theorem reporter_sort_stable (sortBy : SortBy) (l c : List RelayTimed)
    (hsub : c.Sublist l)
    (heq : c.Pairwise fun a b => Reporter.cmp sortBy a b = .eq) :
    c.Sublist (Reporter.sort sortBy l) :=
  List.sublist_insertionSort
    (heq.imp fun h => by simp [Reporter.le, h]) hsub

/-- C9 (witness): ranking by distance on relays with distances
`[50, 10, 30]` km yields the order `[10, 30, 50]`, and the two equal-distance
relays `tEqA`, `tEqB` keep their relative order through the sort. -/
theorem reporter_sort_stable_witness :
    Reporter.sort .distance [t50, t10, t30] = [t10, t30, t50] ∧
    [tEqA, tEqB].Sublist [t50, tEqA, tEqB] ∧
    ([tEqA, tEqB].Pairwise fun a b => Reporter.cmp .distance a b = .eq) ∧
    [tEqA, tEqB].Sublist (Reporter.sort .distance [t50, tEqA, tEqB]) :=
  ⟨by decide, by decide, by decide,
    reporter_sort_stable .distance [t50, tEqA, tEqB] [tEqA, tEqB]
      (by decide) (by decide)⟩

/-! ### C6/C7/C10: the statistics -/

/-- The sorted copy computed inside `rtt_median` is the unique `≤`-sorted
permutation of the timings. -/
theorem insertionSort_eq_of_perm_sorted {s l : List Duration} (hp : s.Perm l)
    (hs : s.Sorted (· ≤ ·)) : List.insertionSort (· ≤ ·) l = s :=
  List.eq_of_perm_of_sorted ((List.perm_insertionSort _ l).trans hp.symm)
    (List.sorted_insertionSort _ l) hs

/-- C6: `rtt_median` is undefined exactly on an empty timing sequence, and on
a nonempty sequence whose ascending sort is `s` it returns `s[n/2]` for odd
length `n` and the (Duration-arithmetic, i.e. floor) average of the two
elements adjacent to the midpoint for even `n`. -/
theorem rttMedian_spec (t : RelayTimed) (s : List Duration)
    (hp : s.Perm t.timings) (hs : s.Sorted (· ≤ ·)) :
    (t.rttMedian = none ↔ t.timings = []) ∧
    (s.length % 2 = 1 → t.rttMedian = some (s.getD (s.length / 2) 0)) ∧
    (s.length % 2 = 0 → t.timings ≠ [] →
      t.rttMedian =
        some ((s.getD (s.length / 2 - 1) 0 + s.getD (s.length / 2) 0) / 2)) := by
  have hsort : List.insertionSort (· ≤ ·) t.timings = s :=
    insertionSort_eq_of_perm_sorted hp hs
  have hlen : s.length = t.timings.length := hp.length_eq
  refine ⟨?_, ?_, ?_⟩
  · unfold RelayTimed.rttMedian
    split_ifs with h0 h1
    · simp [List.length_eq_zero.mp h0]
    · have hne : t.timings ≠ [] := fun e => h0 (by simp [e])
      simp [hne]
    · have hne : t.timings ≠ [] := fun e => h0 (by simp [e])
      simp [hne]
  · intro hodd
    have h0 : ¬ t.timings.length = 0 := by omega
    have h1 : ¬ t.timings.length % 2 = 0 := by omega
    unfold RelayTimed.rttMedian
    rw [if_neg h0, if_neg h1, hsort, ← hlen]
  · intro heven hne
    have h0 : ¬ t.timings.length = 0 := fun e => hne (List.length_eq_zero.mp e)
    have h1 : t.timings.length % 2 = 0 := by omega
    unfold RelayTimed.rttMedian
    rw [if_neg h0, if_pos h1, hsort, ← hlen]

/-- Fixture for the even-length median example `[100ms, 300ms]`. -/
def tEven : RelayTimed := ⟨testRelay "me" 0, [ms 100, ms 300]⟩

/-- Fixture for the odd-length median example `[100ms, 200ms, 900ms]`. -/
def tOdd : RelayTimed := ⟨testRelay "mo" 0, [ms 100, ms 200, ms 900]⟩

/-- C6 (witness): median of `[100ms, 300ms]` is 200ms and median of
`[100ms, 200ms, 900ms]` is 200ms, obtained through `rttMedian_spec`. -/
theorem rttMedian_spec_witness :
    tEven.rttMedian = some (ms 200) ∧ tOdd.rttMedian = some (ms 200) := by
  constructor
  · have h := (rttMedian_spec tEven [ms 100, ms 300] (by decide) (by decide)).2.2
      (by decide) (by decide)
    rw [h]; decide
  · have h := (rttMedian_spec tOdd [ms 100, ms 200, ms 900] (by decide)
      (by decide)).2.1 (by decide)
    rw [h]; decide

/-- Fixture for the mean example `[100ms, 200ms, 300ms]`. -/
def tMean : RelayTimed := ⟨testRelay "w7" 0, [ms 100, ms 200, ms 300]⟩

/-- C7: `rtt_mean` is undefined exactly on an empty timing sequence; on a
nonempty sequence it returns the arithmetic mean at Duration granularity (the
value `m` with `m * n ≤ sum < (m + 1) * n`); mean of `[100ms, 200ms, 300ms]`
is 200ms. -/
theorem rttMean_spec :
    (∀ t : RelayTimed, t.rttMean = none ↔ t.timings = []) ∧
    (∀ (t : RelayTimed) (m : Duration), t.rttMean = some m →
      m * t.timings.length ≤ t.timings.sum ∧
      t.timings.sum < (m + 1) * t.timings.length) ∧
    tMean.rttMean = some (ms 200) := by
  refine ⟨?_, ?_, ?_⟩
  · intro t
    unfold RelayTimed.rttMean
    split_ifs with h0
    · simp [List.length_eq_zero.mp h0]
    · have hne : t.timings ≠ [] := fun e => h0 (by simp [e])
      simp [hne]
  · intro t m hm
    unfold RelayTimed.rttMean at hm
    split_ifs at hm with h0
    have hmm : t.timings.sum / t.timings.length = m := Option.some.inj hm
    have hpos : 0 < t.timings.length := Nat.pos_of_ne_zero h0
    constructor
    · rw [← hmm, Nat.mul_comm]
      exact Nat.mul_div_le _ _
    · rw [← hmm]
      exact (Nat.div_lt_iff_lt_mul hpos).mp (Nat.lt_succ_self _)
  · decide

/-- C7 (witness): the mean of `[100ms, 200ms, 300ms]` is 200ms and it
satisfies the arithmetic-mean bracketing, obtained through `rttMean_spec`. -/
theorem rttMean_spec_witness :
    tMean.rttMean = some (ms 200) ∧
    ms 200 * tMean.timings.length ≤ tMean.timings.sum ∧
    tMean.timings.sum < (ms 200 + 1) * tMean.timings.length := by
  have h1 : tMean.rttMean = some (ms 200) := rttMean_spec.2.2
  have h2 := rttMean_spec.2.1 tMean (ms 200) h1
  exact ⟨h1, h2.1, h2.2⟩

/-- C10: `rtt_mean` and `rtt_median` depend only on the multiset of timings —
any permutation of the timing sequence yields the same mean and the same
median.  (In this embedding both are pure functions of the `RelayTimed`
value; the source likewise sorts a `clone()` of the stored sequence and never
mutates it.) -/
theorem rtt_stats_perm (t₁ t₂ : RelayTimed) (hp : t₁.timings.Perm t₂.timings) :
    t₁.rttMean = t₂.rttMean ∧ t₁.rttMedian = t₂.rttMedian := by
  have hlen : t₁.timings.length = t₂.timings.length := hp.length_eq
  have hsum : t₁.timings.sum = t₂.timings.sum := hp.sum_eq
  have hsort : List.insertionSort (· ≤ ·) t₁.timings =
      List.insertionSort (· ≤ ·) t₂.timings :=
    insertionSort_eq_of_perm_sorted
      ((List.perm_insertionSort _ _).trans hp.symm) (List.sorted_insertionSort _ _)
  constructor
  · unfold RelayTimed.rttMean
    rw [hlen, hsum]
  · unfold RelayTimed.rttMedian
    rw [hsort, hlen]

/-- Fixture: the timings `[300ms, 100ms]`. -/
def tPermA : RelayTimed := ⟨testRelay "p" 0, [ms 300, ms 100]⟩

/-- Fixture: the permuted timings `[100ms, 300ms]`. -/
def tPermB : RelayTimed := ⟨testRelay "p" 0, [ms 100, ms 300]⟩

/-- C10 (witness): permuting `[300ms, 100ms]` into `[100ms, 300ms]` changes
neither the mean nor the median. -/
theorem rtt_stats_perm_witness :
    tPermA.rttMean = tPermB.rttMean ∧ tPermA.rttMedian = tPermB.rttMedian :=
  rtt_stats_perm tPermA tPermB (by decide)

/-! ### C2: the RTT filter -/

/-- C2: with no configured threshold the RTT filter admits unconditionally;
with a configured threshold `T` it admits exactly the relays whose mean
latency is defined and `≤ T`; with a configured threshold and zero successful
timings (mean undefined) the relay is rejected. -/
theorem filterByRTT_spec (f : FilterByRTT) (t : RelayTimed) :
    (f.rtt = none → f.matches t = true) ∧
    (∀ T, f.rtt = some T →
      (f.matches t = true ↔ ∃ m, t.rttMean = some m ∧ m ≤ T)) ∧
    (∀ T, f.rtt = some T → t.timings = [] → f.matches t = false) := by
  refine ⟨?_, ?_, ?_⟩
  · intro h
    simp [FilterByRTT.matches, h]
  · intro T hT
    cases hm : t.rttMean with
    | none => simp [FilterByRTT.matches, RelayTimed.rtt, hT, hm]
    | some m => simp [FilterByRTT.matches, RelayTimed.rtt, hT, hm]
  · intro T hT he
    have hnone : t.rttMean = none := by simp [RelayTimed.rttMean, he]
    simp [FilterByRTT.matches, RelayTimed.rtt, hT, hnone]

/-- C2 (witness): an absent threshold admits the unreachable relay `tUndef`;
a 50ms threshold rejects it; a 150ms threshold admits `tDef` (mean 100ms). -/
theorem filterByRTT_spec_witness :
    FilterByRTT.matches ⟨none⟩ tUndef = true ∧
    FilterByRTT.matches ⟨some (ms 50)⟩ tUndef = false ∧
    FilterByRTT.matches ⟨some (ms 150)⟩ tDef = true :=
  ⟨(filterByRTT_spec ⟨none⟩ tUndef).1 rfl,
   (filterByRTT_spec ⟨some (ms 50)⟩ tUndef).2.2 (ms 50) rfl rfl,
   ((filterByRTT_spec ⟨some (ms 150)⟩ tDef).2.1 (ms 150) rfl).mpr
     ⟨ms 100, by decide, by decide⟩⟩

/-! ### C8: the distance filter -/

/-- C8 (counterexample): `FilterByDistance::matches` recomputes the distance
from the relay's coordinate to the filter's stored coordinate instead of
consulting the relay's precomputed `distance` field.  A relay whose stored
distance is 600 km but whose coordinate coincides with the filter's (distance
recomputed as 0) is admitted by a 500 km filter, although its precomputed
distance is not `< 500`. -/
theorem filterByDistance_claim_false :
    FilterByDistance.matches testDist ⟨testCoord, 500⟩ (testRelay "far" 600) = true ∧
    ¬ ((testRelay "far" 600).distance < (500 : ℚ)) :=
  ⟨by decide, by decide⟩

/-- C8 (amended): for every metric, the distance filter admits a relay iff the
distance recomputed from the relay's coordinate to the filter's configured
coordinate is strictly below the threshold (equality is rejected), and the
verdict is independent of the relay's precomputed `distance` field.  This
coincides with the claim's "precomputed distance" reading only when the
filter's coordinate is the load-time location. -/
theorem filterByDistance_amended (distTo : Coord → Coord → ℚ)
    (f : FilterByDistance) (r : Relay) :
    (FilterByDistance.matches distTo f r = true ↔
      distTo r.coord f.coord < f.distance) ∧
    (distTo r.coord f.coord = f.distance →
      FilterByDistance.matches distTo f r = false) ∧
    (∀ d : ℚ, FilterByDistance.matches distTo f { r with distance := d } =
      FilterByDistance.matches distTo f r) := by
  refine ⟨?_, ?_, fun d => rfl⟩
  · simp [FilterByDistance.matches]
  · intro h
    simp [FilterByDistance.matches, h]

/-- C8 (witness): a filter whose threshold exactly equals the recomputed
distance (both 0) rejects the relay — the boundary case is excluded. -/
theorem filterByDistance_amended_witness :
    FilterByDistance.matches testDist ⟨testCoord, 0⟩ (testRelay "w8" 0) = false :=
  (filterByDistance_amended testDist ⟨testCoord, 0⟩ (testRelay "w8" 0)).2.1
    (by decide)

/-! ### C3/C4: the orchestrator join loop -/

/-- When every task joins, the join loop collects the filter-passing values in
task (spawn) order, appended after the accumulator. -/
theorem pingJoinLoop_ok (filters : List (RelayTimed → Bool))
    (tasks : List RelayTimed) :
    ∀ acc : List RelayTimed,
      pingJoinLoop filters (tasks.map some) acc =
        .ok (acc ++ tasks.filter fun t => filters.all fun fl => fl t) := by
  induction tasks with
  | nil => intro acc; simp [pingJoinLoop]
  | cons t rest ih =>
    intro acc
    simp only [List.map_cons, pingJoinLoop]
    rw [ih]
    by_cases h : (filters.all fun fl => fl t) = true
    · simp [h, List.filter_cons, List.append_assoc]
    · simp [h, List.filter_cons]

/-- C3 (counterexample): with two tasks where the first-spawned completes
last (completion times 5 and 1), the code still emits the first-spawned value
first — output is spawn order `[tDef, tUndef]`, while completion order is
`[tUndef, tDef]`, and the two values differ. -/
theorem ping_completion_order_false :
    RelaysPinger.pingTimed [] [(tDef, 5), (tUndef, 1)] = .ok [tDef, tUndef] ∧
    completionOrder [(tDef, 5), (tUndef, 1)] = [tUndef, tDef] ∧
    tDef ≠ tUndef :=
  ⟨by rfl, by decide, by decide⟩

/-- C3 (amended): for every run of the probe orchestrator in which all tasks
join, the output sequence of admitted `TimedRelay` values is ordered by the
order in which the tasks were spawned (the input relay order); task completion
times have no influence on the output order. -/
theorem ping_submission_order (filters : List (RelayTimed → Bool))
    (tasks : List (RelayTimed × ℕ)) :
    RelaysPinger.pingTimed filters tasks =
      .ok ((tasks.map Prod.fst).filter fun t => filters.all fun fl => fl t) := by
  unfold RelaysPinger.pingTimed RelaysPinger.ping
  have hmap : (tasks.map fun task => some task.1) = (tasks.map Prod.fst).map some := by
    simp [List.map_map]
  rw [hmap, pingJoinLoop_ok]
  simp

/-- A join failure anywhere in the remaining task list aborts the join loop
with `PingerAwaitFailed`, discarding the accumulator. -/
theorem pingJoinLoop_join_failure (filters : List (RelayTimed → Bool))
    (tasks : List (Option RelayTimed)) :
    ∀ acc : List RelayTimed, none ∈ tasks →
      pingJoinLoop filters tasks acc = .error .pingerAwaitFailed := by
  induction tasks with
  | nil => intro acc h; exact absurd h (List.not_mem_nil _)
  | cons x rest ih =>
    intro acc h
    cases x with
    | none => rfl
    | some t =>
      have hrest : none ∈ rest := by
        rcases List.mem_cons.mp h with h1 | h1
        · cases h1
        · exact h1
      simp only [pingJoinLoop]
      exact ih _ hrest

/-- C4: whenever at least one prober task cannot be joined, `ping` returns
the distinct `PingerAwaitFailed` error and no partial result set — never a
successful result containing only the relays that did join. -/
theorem ping_join_failure (filters : List (RelayTimed → Bool))
    (tasks : List (Option RelayTimed)) (h : none ∈ tasks) :
    RelaysPinger.ping filters tasks = .error .pingerAwaitFailed :=
  pingJoinLoop_join_failure filters tasks [] h

/-- C4 (witness): a batch whose second task fails to join yields the join
error, not the partial result `[tDef]`. -/
theorem ping_join_failure_witness :
    RelaysPinger.ping [] [some tDef, none] = .error .pingerAwaitFailed :=
  ping_join_failure [] [some tDef, none] (by decide)

/-! ### C5: the per-relay probe loop -/

/-- The probe loop performs one tick per remaining iteration and appends the
filter-mapped successful outcomes of the consulted ticks. -/
theorem pingLoop_spec (outcomes : ℕ → Option Duration) :
    ∀ (n ticks : ℕ) (acc : List Duration),
      (pingLoop outcomes n ticks acc).2 = ticks + n ∧
      (pingLoop outcomes n ticks acc).1 =
        acc ++ (List.range' ticks n).filterMap outcomes := by
  intro n
  induction n with
  | zero => intro ticks acc; simp [pingLoop]
  | succ n ih =>
    intro ticks acc
    cases houtcome : outcomes ticks with
    | some e =>
      have h := ih (ticks + 1) (acc ++ [e])
      constructor
      · simp only [pingLoop, houtcome]
        rw [h.1]
        omega
      · simp only [pingLoop, houtcome]
        rw [h.2, List.range'_succ]
        simp [List.filterMap_cons, houtcome]
    | none =>
      have h := ih (ticks + 1) acc
      constructor
      · simp only [pingLoop, houtcome]
        rw [h.1]
        omega
      · simp only [pingLoop, houtcome]
        rw [h.2, List.range'_succ]
        simp [List.filterMap_cons, houtcome]

/-- C5: for every relay, probe configuration and sequence of per-tick probe
outcomes, `RelayPinger::execute` performs exactly `count` scheduled probe
attempts (failures and timeouts never abort the remaining attempts — every
tick is consulted), always returns a `TimedRelay` for the given relay whose
timings are exactly the successful outcomes in tick order, and the timing
sequence length is at most `count` (an empty sequence being a valid
outcome). -/
theorem relayPinger_execute_spec (relay : Relay) (config : RelayPingerConfig)
    (outcomes : ℕ → Option Duration) (hcount : 1 ≤ config.count) :
    -- `hcount` mirrors the claim's "count ≥ 1" side condition; the
    -- conclusions hold for every count.
    (RelayPinger.execute relay config outcomes).relay = relay ∧
    (pingLoop outcomes config.count 0 []).2 = config.count ∧
    (RelayPinger.execute relay config outcomes).timings =
      (List.range config.count).filterMap outcomes ∧
    (RelayPinger.execute relay config outcomes).timings.length ≤ config.count := by
  have h1 := (pingLoop_spec outcomes config.count 0 []).1
  have h2 := (pingLoop_spec outcomes config.count 0 []).2
  have htim : (RelayPinger.execute relay config outcomes).timings =
      (List.range config.count).filterMap outcomes := by
    show (pingLoop outcomes config.count 0 []).1 = _
    rw [h2, List.range_eq_range']
    simp
  refine ⟨rfl, by rw [h1]; exact Nat.zero_add _, htim, ?_⟩
  rw [htim]
  calc ((List.range config.count).filterMap outcomes).length
      ≤ (List.range config.count).length := List.length_filterMap_le _ _
    _ = config.count := List.length_range _

/-- Probe-outcome fixture: the first attempt fails, every later one succeeds
in 100ms. -/
def testOutcomes : ℕ → Option Duration := fun i => if i = 0 then none else some (ms 100)

/-- Probe-config fixture: 2 probes, 750ms timeout, 1s interval. -/
def testConfig : RelayPingerConfig := ⟨2, ms 750, ms 1000⟩

/-- C5 (witness): with 2 configured probes of which the first fails, the
prober still performs both ticks and returns the single collected timing. -/
theorem relayPinger_execute_spec_witness :
    1 ≤ testConfig.count ∧
    (RelayPinger.execute (testRelay "w5" 0) testConfig testOutcomes).relay =
      testRelay "w5" 0 ∧
    (pingLoop testOutcomes testConfig.count 0 []).2 = testConfig.count ∧
    (RelayPinger.execute (testRelay "w5" 0) testConfig testOutcomes).timings =
      [ms 100] ∧
    (RelayPinger.execute (testRelay "w5" 0) testConfig testOutcomes).timings.length
      ≤ testConfig.count := by
  have h := relayPinger_execute_spec (testRelay "w5" 0) testConfig testOutcomes
    (by decide)
  exact ⟨by decide, h.1, h.2.1, by decide, h.2.2.2⟩

end Pingmole
